import Mathlib

/-
Verification of the employee-directory application (list/search view,
CSV import pipeline, CSV export utility, data-access layer).

Strings are modelled as lists of characters.  The external store is
modelled by the list of e-mail addresses it currently holds: the data
model's single invariant is e-mail uniqueness, so an insert fails with
the unique-constraint violation exactly when the e-mail is present.
Server-assigned attributes (id, creation timestamp) are never read back
by the code under verification and are not modelled.
-/

abbrev Str := List Char

/-- Employee record: the five client-supplied text attributes. -/
structure Employee where
  company_name : Str
  name : Str
  email : Str
  department : Str
  position : Str
deriving DecidableEq, Repr

/-- Character-wise lowercasing, the model of toLowerCase. -/
def toLowerStr (s : Str) : Str := s.map Char.toLower

/-- Substring test, the model of the includes method on strings. -/
def includesStr (hay needle : Str) : Bool := decide (needle <:+: hay)

/-- Leading- and trailing-whitespace removal, the model of trim. -/
def trimStr (s : Str) : Str :=
  ((s.dropWhile Char.isWhitespace).reverse.dropWhile Char.isWhitespace).reverse

/-- Decimal rendering of a number, the model of template interpolation of a number. -/
def natToStr (n : Nat) : Str := (toString n).data

/-- Characters admitted before the at-sign by the import email pattern (with the ignore-case flag). -/
def isLocalChar (c : Char) : Bool :=
  c.isAlpha || c.isDigit || c == '.' || c == '_' || c == '%' || c == '+' || c == '-'

/-- Characters admitted in the domain part by the import email pattern. -/
def isDomainChar (c : Char) : Bool :=
  c.isAlpha || c.isDigit || c == '.' || c == '-'

/-- Split a string at the first occurrence of a character. -/
def splitAtChar (ch : Char) : Str → Option (Str × Str)
  | [] => none
  | c :: cs =>
      if c = ch then some ([], cs)
      else (splitAtChar ch cs).map fun p => (c :: p.1, p.2)

/-- The part after the at-sign must consist of a non-empty run of domain
characters, a dot, and at least two letters. -/
def domainOk (dom : Str) : Bool :=
  (List.range dom.length).any fun i =>
    (dom.get? i == some '.') && decide (1 ≤ i) && (dom.take i).all isDomainChar &&
    decide (i + 3 ≤ dom.length) && (dom.drop (i + 1)).all Char.isAlpha

/-- The anchored email pattern used by the CSV import (and the registration
form): one or more local characters, an at-sign, domain characters, a dot,
and a two-letter-minimum alphabetic tail. -/
def emailOk (s : Str) : Bool :=
  match splitAtChar '@' s with
  | none => false
  | some (loc, dom) => decide (loc ≠ []) && loc.all isLocalChar && domainOk dom

/-- The import's required CSV columns, as (header, record field) pairs in
declaration order. -/
def REQUIRED_HEADERS : List (Str × Str) :=
  [ ("会社名".data, "company_name".data),
    ("氏名".data, "name".data),
    ("メールアドレス".data, "email".data),
    ("部署".data, "department".data),
    ("役職".data, "position".data) ]

/-- The required header names in declaration order. -/
def importHeaderKeys : List Str := REQUIRED_HEADERS.map Prod.fst

/-- The export's column headers in declaration order of the header object:
name, email, company name, department, position. -/
def EXPORT_HEADERS : List Str :=
  [ "氏名".data, "メールアドレス".data, "会社名".data, "部署".data, "役職".data ]

/-- The model of the join method on an array of strings. -/
def joinWith (sep : Str) : List Str → Str
  | [] => []
  | [x] => x
  | x :: xs => x ++ sep ++ joinWith sep xs

/-- The export wraps every field in a pair of double quotes (without
escaping quotes inside the field). -/
def quoteField (s : Str) : Str := '"' :: s ++ ['"']

/-- One exported data row: the five fields quoted and comma-joined, in the
export's column order. -/
def exportRow (e : Employee) : Str :=
  joinWith ",".data
    [ quoteField e.name, quoteField e.email, quoteField e.company_name,
      quoteField e.department, quoteField e.position ]

/-- The export's header line. -/
def exportHeaderLine : Str := joinWith ",".data EXPORT_HEADERS

/-- The csvContent string built by the export: header line and data rows
joined with newlines. -/
def csvContent (data : List Employee) : Str :=
  joinWith "\n".data (exportHeaderLine :: data.map exportRow)

/-- The byte-order mark prepended by the export. -/
def bomChar : Char := Char.ofNat 0xFEFF

/-- The text of the blob produced by downloadCSV: a BOM followed by the
CSV content. -/
def downloadCSV (data : List Employee) : Str := bomChar :: csvContent data

/-- Reading an uploaded file as UTF-8 text strips a leading byte-order
mark, which is what the CSV parser receives. -/
def readFileText (raw : Str) : Str :=
  if raw.head? = some bomChar then raw.tail else raw

/-- States of the CSV tokenizer: at the start of a field, inside an
unquoted field, inside a quoted field, and just after a closing quote. -/
inductive PState
  | start
  | unq
  | quo
  | aftq
deriving DecidableEq

/-- Character-level CSV tokenizer (comma delimiter, newline record
separator, double-quote quoting with doubled quotes as escapes), the model
of the CSV parsing library used by the import.  Arguments: state, rest of
the input, current field, fields of the current record, finished records. -/
def pcsv : PState → Str → Str → List Str → List (List Str) → List (List Str)
  | st, [], f, rec, acc =>
      if st = PState.start ∧ f = [] ∧ rec = [] then acc else acc ++ [rec ++ [f]]
  | PState.start, c :: rest, f, rec, acc =>
      if c = '"' then pcsv PState.quo rest f rec acc
      else if c = ',' then pcsv PState.start rest [] (rec ++ [f]) acc
      else if c = '\n' then pcsv PState.start rest [] [] (acc ++ [rec ++ [f]])
      else pcsv PState.unq rest (f ++ [c]) rec acc
  | PState.unq, c :: rest, f, rec, acc =>
      if c = ',' then pcsv PState.start rest [] (rec ++ [f]) acc
      else if c = '\n' then pcsv PState.start rest [] [] (acc ++ [rec ++ [f]])
      else pcsv PState.unq rest (f ++ [c]) rec acc
  | PState.quo, c :: rest, f, rec, acc =>
      if c = '"' then pcsv PState.aftq rest f rec acc
      else pcsv PState.quo rest (f ++ [c]) rec acc
  | PState.aftq, c :: rest, f, rec, acc =>
      if c = '"' then pcsv PState.quo rest (f ++ ['"']) rec acc
      else if c = ',' then pcsv PState.start rest [] (rec ++ [f]) acc
      else if c = '\n' then pcsv PState.start rest [] [] (acc ++ [rec ++ [f]])
      else pcsv PState.unq rest (f ++ [c]) rec acc

/-- Parse CSV text into records of fields. -/
def parseCSV (s : Str) : List (List Str) := pcsv PState.start s [] [] []

/-- Looking a header up in a parsed row: the model of field access on the
row object built by header-mode parsing (headers zipped with the row's
values). -/
def rowGet (headers vals : List Str) (key : Str) : Option Str :=
  (headers.zip vals).lookup key

/-- Message for a missing required column. -/
def missingHeadersMsg (missing : List Str) : Str :=
  "必須列が不足しています: ".data ++ joinWith ", ".data missing

/-- Message for an empty required field of a row. -/
def requiredFieldMsg (rowNum : Nat) (header : Str) : Str :=
  natToStr rowNum ++ "行目: ".data ++ header ++ "は必須です".data

/-- Message for a malformed email of a row. -/
def emailFormatMsg (rowNum : Nat) : Str :=
  natToStr rowNum ++ "行目: メールアドレスの形式が不正です".data

/-- Per-row validation of the import: an error for every required field
that is absent or whitespace-only (in required-column order), then an
error when the email field is non-empty but fails the email pattern. -/
def rowErrors (headers vals : List Str) (rowNum : Nat) : List Str :=
  let reqErrs := REQUIRED_HEADERS.filterMap fun hf =>
    if trimStr ((rowGet headers vals hf.1).getD []) = [] then
      some (requiredFieldMsg rowNum hf.1)
    else none
  let email := (rowGet headers vals "メールアドレス".data).getD []
  let emailErrs :=
    if email ≠ [] ∧ emailOk email = false then [emailFormatMsg rowNum] else []
  reqErrs ++ emailErrs

/-- Mapping a parsed row to an employee record over the five required
columns. -/
def rowToEmployee (headers vals : List Str) : Employee :=
  { company_name := (rowGet headers vals "会社名".data).getD []
    name := (rowGet headers vals "氏名".data).getD []
    email := (rowGet headers vals "メールアドレス".data).getD []
    department := (rowGet headers vals "部署".data).getD []
    position := (rowGet headers vals "役職".data).getD [] }

/-- Walk the data rows in order (idx is the zero-based row position; the
displayed row number is idx + 2, accounting for the header line), keeping
rows without errors and collecting the error messages of the others. -/
def processRows (headers : List Str) (idx : Nat) : List (List Str) → List Str × List Employee
  | [] => ([], [])
  | v :: vs =>
    let errs := rowErrors headers v (idx + 2)
    let rest := processRows headers (idx + 1) vs
    if errs = [] then (rest.1, rowToEmployee headers v :: rest.2)
    else (errs ++ rest.1, rest.2)

/-- Result of validateCSVData. -/
structure ValidationResult where
  valid : Bool
  errors : List Str
  data : List Employee
deriving DecidableEq, Repr

/-- The import's validator: parse the text, take the first record as the
header row, report missing required columns, validate each data row, and
accept only when there is no error and at least one valid row. -/
def validateCSVData (text : Str) : ValidationResult :=
  let records := parseCSV text
  let headers := records.head?.getD []
  let rows := records.tail
  let missing := (REQUIRED_HEADERS.map Prod.fst).filter fun h => !headers.contains h
  let headerErrs := if missing = [] then [] else [missingHeadersMsg missing]
  let rowRes := processRows headers 0 rows
  let errors := headerErrs ++ rowRes.1
  { valid := errors.isEmpty && !rowRes.2.isEmpty, errors := errors, data := rowRes.2 }

/-- The duplicate-email message raised by createEmployee. -/
def dupEmailMsg : Str := "このメールアドレスは既に登録されています".data

/-- The store holds the set of registered emails; the existence check asks
whether a row with the given email is present. -/
def checkEmailExists (store : List Str) (email : Str) : Bool := store.contains email

/-- Backend error surfaced by an insert: the unique-constraint violation
(code 23505), the one failure the modelled store produces. -/
inductive DBError
  | uniqueViolation
deriving DecidableEq

/-- Inserting a row into a store with a unique constraint on email:
the insert fails with the constraint violation exactly when the email is
already present. -/
def insertEmployee (store : List Str) (email : Str) : List Str × Except DBError Unit :=
  if store.contains email then (store, Except.error DBError.uniqueViolation)
  else (store ++ [email], Except.ok ())

/-- Result of a createEmployee call: the store afterwards, whether the
insert was attempted, and the outcome (an error message on failure). -/
structure CreateResult where
  store : List Str
  insertAttempted : Bool
  result : Except Str Unit
deriving Repr

/-- createEmployee: check for the email client-side first and raise the
duplicate-email error without inserting when it exists; otherwise insert,
mapping a unique-constraint violation to the same duplicate-email error.
The check and the insert each read the store current at their own moment
(checkStore and insertStore), which coincide in a sequential run. -/
def createEmployee (checkStore insertStore : List Str) (d : Employee) : CreateResult :=
  if checkEmailExists checkStore d.email then
    { store := insertStore, insertAttempted := false, result := Except.error dupEmailMsg }
  else
    match insertEmployee insertStore d.email with
    | (s, Except.ok _) => { store := s, insertAttempted := true, result := Except.ok () }
    | (s, Except.error DBError.uniqueViolation) =>
        { store := s, insertAttempted := true, result := Except.error dupEmailMsg }

/-- The import modal's translation of a create error message into a
user-facing message for the given employee name. -/
def getErrorMessage (errMsg employeeName : Str) : Str :=
  let m := toLowerStr errMsg
  if includesStr m "duplicate key".data || includesStr m "unique constraint".data then
    employeeName ++ "のメールアドレスは既に登録されています".data
  else if includesStr m "invalid email".data || includesStr m "email format".data then
    employeeName ++ "のメールアドレスの形式が正しくありません".data
  else if includesStr m "required".data then
    let field :=
      if includesStr m "email".data then "メールアドレス".data
      else if includesStr m "name".data then "氏名".data
      else if includesStr m "company".data then "会社名".data
      else if includesStr m "department".data then "部署".data
      else if includesStr m "position".data then "役職".data
      else "必須項目".data
    employeeName ++ "の".data ++ field ++ "が入力されていません".data
  else if includesStr m "too long".data then
    let field :=
      if includesStr m "email".data then "メールアドレス".data
      else if includesStr m "name".data then "氏名".data
      else if includesStr m "company".data then "会社名".data
      else if includesStr m "department".data then "部署".data
      else if includesStr m "position".data then "役職".data
      else "データ".data
    employeeName ++ "の".data ++ field ++ "が長すぎます".data
  else if includesStr m "database".data || includesStr m "db error".data then
    employeeName ++ "の登録中にデータベースエラーが発生しました".data
  else
    employeeName ++ "の登録に失敗しました: システムエラーが発生しました".data

/-- Message for a later row repeating an email already seen in the file. -/
def dupInFileMsg (name : Str) : Str :=
  name ++ "のメールアドレスがCSVファイル内で重複しています".data

/-- State threaded through the import loop: the backend store, the number
of imported rows, the accumulated error messages, the emails already seen
in this file, and the trace of createEmployee calls made (each with its
success flag). -/
structure LoopState where
  store : List Str
  imported : Nat
  importErrors : List Str
  dupEmails : List Str
  trace : List (Employee × Bool)
deriving DecidableEq, Repr

/-- The import loop: for each valid record in row order, skip it with a
duplicate-in-file message when its email was already seen, otherwise
remember the email and await one createEmployee call (the awaited call
sees the store as left by the previous row), counting a success or
recording one translated error message. -/
def importLoop : List Employee → LoopState → LoopState
  | [], st => st
  | r :: rs, st =>
    if st.dupEmails.contains r.email then
      importLoop rs { st with importErrors := st.importErrors ++ [dupInFileMsg r.name] }
    else
      let st1 : LoopState := { st with dupEmails := st.dupEmails ++ [r.email] }
      match createEmployee st1.store st1.store r with
      | { store := store2, insertAttempted := _, result := Except.ok _ } =>
          importLoop rs { st1 with store := store2, imported := st1.imported + 1,
                                   trace := st1.trace ++ [(r, true)] }
      | { store := store2, insertAttempted := _, result := Except.error msg } =>
          importLoop rs { st1 with store := store2,
                                   importErrors := st1.importErrors ++ [getErrorMessage msg r.name],
                                   trace := st1.trace ++ [(r, false)] }

/-- The size limit checked before parsing: five megabytes. -/
def MAX_FILE_SIZE : Nat := 5 * 1024 * 1024

/-- The over-size message. -/
def fileSizeErrorMsg : Str := "ファイルサイズは5MB以下にしてください".data

/-- Outcome of processFile: the error list shown, the success count, the
trace of createEmployee calls, and the store afterwards. -/
structure ImportOutcome where
  errors : List Str
  successCount : Nat
  trace : List (Employee × Bool)
  store : List Str
deriving DecidableEq, Repr

/-- processFile: reject a file over the size limit before parsing, run the
validator on the decoded text, stop with its errors when it rejects, and
otherwise run the import loop over the valid rows. -/
def processFile (fileSize : Nat) (raw : Str) (store : List Str) : ImportOutcome :=
  if fileSize > MAX_FILE_SIZE then
    { errors := [fileSizeErrorMsg], successCount := 0, trace := [], store := store }
  else
    let result := validateCSVData (readFileText raw)
    if result.valid = false then
      { errors := result.errors, successCount := 0, trace := [], store := store }
    else
      let fin := importLoop result.data
        { store := store, imported := 0, importErrors := [], dupEmails := [], trace := [] }
      { errors := fin.importErrors, successCount := fin.imported,
        trace := fin.trace, store := fin.store }

/-- The list view's per-employee search predicate: keep everything for the
empty term, otherwise match the lowercased term against the five
lowercased fields (name, email, department, company name, position). -/
def matchesSearch (searchTerm : Str) (e : Employee) : Bool :=
  if searchTerm = [] then true
  else
    let t := toLowerStr searchTerm
    includesStr (toLowerStr e.name) t || includesStr (toLowerStr e.email) t ||
    includesStr (toLowerStr e.department) t || includesStr (toLowerStr e.company_name) t ||
    includesStr (toLowerStr e.position) t

/-- The list view's filtered list. -/
def filteredEmployees (employees : List Employee) (searchTerm : Str) : List Employee :=
  employees.filter (matchesSearch searchTerm)

/-- The export button handler passes the filtered list to downloadCSV. -/
def handleExportCSV (employees : List Employee) (searchTerm : Str) : Str :=
  downloadCSV (filteredEmployees employees searchTerm)

/-- The export button is disabled when the filtered list is empty. -/
def exportButtonDisabled (employees : List Employee) (searchTerm : Str) : Bool :=
  (filteredEmployees employees searchTerm).length == 0

/-- The field list of an exported row in export column order, as the
parser recovers it. -/
def rowFields (e : Employee) : List Str :=
  [ e.name, e.email, e.company_name, e.department, e.position ]

/-- First occurrences by email: the sublist of records whose email was not
seen before (seen starts with the given list). -/
def dedupEmails (seen : List Str) : List Employee → List Employee
  | [] => []
  | r :: rs =>
    if seen.contains r.email then dedupEmails seen rs
    else r :: dedupEmails (seen ++ [r.email]) rs

/-- Expected createEmployee call trace of the import loop: later
duplicates make no call; every other record makes one call, successful
exactly when its email is not yet in the store. -/
def traceSpec (seen store : List Str) : List Employee → List (Employee × Bool)
  | [] => []
  | r :: rs =>
    if seen.contains r.email then traceSpec seen store rs
    else (r, !store.contains r.email) ::
      traceSpec (seen ++ [r.email])
        (if store.contains r.email then store else store ++ [r.email]) rs

/-- Expected error-message list of the import loop: a duplicate-in-file
message for every later duplicate, a translated create error for every
call hitting an email already stored, nothing for a success. -/
def errSpec (seen store : List Str) : List Employee → List Str
  | [] => []
  | r :: rs =>
    if seen.contains r.email then dupInFileMsg r.name :: errSpec seen store rs
    else if store.contains r.email then
      getErrorMessage dupEmailMsg r.name :: errSpec (seen ++ [r.email]) store rs
    else errSpec (seen ++ [r.email]) (store ++ [r.email]) rs

/-- A field is quote-free when it contains no double quote, the one
character the unescaping export cannot round-trip. -/
def quoteFreeB (s : Str) : Bool := !s.contains '"'

/-- Round-trip-safe record: quote-free fields, no whitespace-only field,
and an email accepted by the import pattern. -/
def fieldsOk (e : Employee) : Bool :=
  quoteFreeB e.company_name && quoteFreeB e.name && quoteFreeB e.email &&
  quoteFreeB e.department && quoteFreeB e.position &&
  decide (trimStr e.company_name ≠ []) && decide (trimStr e.name ≠ []) &&
  decide (trimStr e.email ≠ []) && decide (trimStr e.department ≠ []) &&
  decide (trimStr e.position ≠ []) && emailOk e.email


/-- First line of a text: everything before the first newline. -/
def firstLine (s : Str) : Str := s.takeWhile (fun c => c != '\n')

/-- A concrete employee record used to instantiate theorems. -/
def wEmp : Employee :=
  { company_name := "A".data, name := "N".data, email := "a@b.co".data,
    department := "D".data, position := "P".data }

/-- A file whose first data row is valid and whose second has an empty
required field. -/
def cexFile : Str :=
  "会社名,氏名,メールアドレス,部署,役職\nA,Yamada,a@x.co,D,P\n,Tanaka,t@x.co,D,P".data

/-- A fully valid file whose second row's email is already stored and
whose third row repeats the first row's email. -/
def mixedFile : Str :=
  "会社名,氏名,メールアドレス,部署,役職\nA,Yamada,a@x.co,D,P\nB,Tanaka,b@x.co,D,P\nC,Sato,a@x.co,D,P".data

/-- A store already holding the second row's email of mixedFile. -/
def mixedStore : List Str := [ "b@x.co".data ]

/-- A fully valid two-row file whose first row's email is already stored. -/
def failOkFile : Str :=
  "会社名,氏名,メールアドレス,部署,役職\nA,Yamada,a@x.co,D,P\nB,Tanaka,b@x.co,D,P".data

/-- A store already holding the first row's email of failOkFile. -/
def failOkStore : List Str := [ "a@x.co".data ]

/-- A record whose name is a single space: non-empty, but rejected by the
trim-based required-field check after a round trip. -/
def wsEmp : Employee :=
  { company_name := "A".data, name := " ".data, email := "a@b.co".data,
    department := "D".data, position := "P".data }

theorem includesStr_iff (hay needle : Str) : includesStr hay needle = true ↔ needle <:+: hay := by
  simp [includesStr]

theorem joinWith_cons (sep x : Str) (xs : List Str) (h : xs ≠ []) :
    joinWith sep (x :: xs) = x ++ sep ++ joinWith sep xs := by
  cases xs with
  | nil => exact absurd rfl h
  | cons y ys => rfl

theorem takeWhile_all (w : Str) (hw : ∀ c ∈ w, (c != '\n') = true) :
    w.takeWhile (fun c => c != '\n') = w := by
  induction w with
  | nil => rfl
  | cons c cs ih =>
      simp only [List.takeWhile_cons, hw c (by simp), if_true]
      rw [ih fun x hx => hw x (by simp [hx])]

theorem takeWhile_append_newline (w r : Str) (hw : ∀ c ∈ w, (c != '\n') = true) :
    (w ++ '\n' :: r).takeWhile (fun c => c != '\n') = w := by
  induction w with
  | nil => simp
  | cons c cs ih =>
      simp only [List.cons_append, List.takeWhile_cons, hw c (by simp), if_true]
      rw [ih fun x hx => hw x (by simp [hx])]

/-- C4: an employee is kept by the list view's filter exactly when the
search term is empty or the lowercased term is a substring of one of the
five lowercased text fields. -/
theorem filteredEmployees_spec (employees : List Employee) (searchTerm : Str) (e : Employee) :
    e ∈ filteredEmployees employees searchTerm ↔
      e ∈ employees ∧ (searchTerm = [] ∨
        toLowerStr searchTerm <:+: toLowerStr e.name ∨
        toLowerStr searchTerm <:+: toLowerStr e.email ∨
        toLowerStr searchTerm <:+: toLowerStr e.department ∨
        toLowerStr searchTerm <:+: toLowerStr e.company_name ∨
        toLowerStr searchTerm <:+: toLowerStr e.position) := by
  by_cases ht : searchTerm = []
  · simp [filteredEmployees, matchesSearch, ht]
  · simp only [filteredEmployees, List.mem_filter, matchesSearch, ht, includesStr,
      if_false, Bool.or_eq_true, decide_eq_true_eq, eq_self_iff_true]
    constructor
    · rintro ⟨hm, hor⟩
      exact ⟨hm, Or.inr (by tauto)⟩
    · rintro ⟨hm, hor⟩
      refine ⟨hm, ?_⟩
      rcases hor with h0 | hrest
      · exact h0.elim
      · tauto

/-- C5: a file strictly over the five-megabyte limit is rejected with the
size message alone, independently of its content, and no createEmployee
call happens. -/
theorem processFile_size_limit (fileSize : Nat) (raw : Str) (store : List Str)
    (h : 5 * 1024 * 1024 < fileSize) :
    processFile fileSize raw store =
      { errors := [fileSizeErrorMsg], successCount := 0, trace := [], store := store } := by
  have hb : fileSize > MAX_FILE_SIZE := h
  simp [processFile, hb]

theorem processFile_size_limit_witness :
    5 * 1024 * 1024 < 5242881 ∧
    processFile 5242881 "会社名".data [] =
      { errors := [fileSizeErrorMsg], successCount := 0, trace := [], store := [] } :=
  ⟨by decide, processFile_size_limit 5242881 ("会社名".data) [] (by decide)⟩

/-- C9: a validation result with no valid data row is rejected, and a file
holding only the (correct) header row is rejected with an empty error
list. -/
theorem validateCSVData_empty_data (text : Str) :
    ((validateCSVData text).data = [] → (validateCSVData text).valid = false) ∧
    validateCSVData "会社名,氏名,メールアドレス,部署,役職".data =
      { valid := false, errors := [], data := [] } := by
  constructor
  · intro h
    simp only [validateCSVData] at h ⊢
    rw [h]
    simp
  · decide

theorem validateCSVData_empty_data_witness :
    (validateCSVData []).data = [] ∧ (validateCSVData []).valid = false :=
  ⟨by decide, (validateCSVData_empty_data []).1 (by decide)⟩

/-- C6: createEmployee raises the duplicate-email message without
attempting the insert when the client-side check finds the email, and an
insert hitting the unique constraint despite a clean check raises the
same message. -/
theorem createEmployee_duplicate_email (checkStore insertStore : List Str) (d : Employee) :
    (checkEmailExists checkStore d.email = true →
      createEmployee checkStore insertStore d =
        { store := insertStore, insertAttempted := false,
          result := Except.error dupEmailMsg }) ∧
    (checkEmailExists checkStore d.email = false →
      checkEmailExists insertStore d.email = true →
      createEmployee checkStore insertStore d =
        { store := insertStore, insertAttempted := true,
          result := Except.error dupEmailMsg }) := by
  constructor
  · intro h
    simp [createEmployee, h]
  · intro h1 h2
    have h2m : d.email ∈ insertStore := by simpa [checkEmailExists] using h2
    simp [createEmployee, h1, insertEmployee, h2m]

theorem createEmployee_duplicate_email_witness :
    createEmployee [ "a@b.co".data ] [] wEmp =
      { store := [], insertAttempted := false, result := Except.error dupEmailMsg } ∧
    createEmployee [] [ "a@b.co".data ] wEmp =
      { store := [ "a@b.co".data ], insertAttempted := true,
        result := Except.error dupEmailMsg } :=
  ⟨(createEmployee_duplicate_email [ "a@b.co".data ] [] wEmp).1 (by decide),
   (createEmployee_duplicate_email [] [ "a@b.co".data ] wEmp).2 (by decide) (by decide)⟩

/-- C10: the export button serializes exactly the filtered subset, and it
is disabled exactly when no employee matches the active search term. -/
theorem export_uses_filtered (employees : List Employee) (searchTerm : Str) :
    handleExportCSV employees searchTerm =
      downloadCSV (employees.filter (matchesSearch searchTerm)) ∧
    (exportButtonDisabled employees searchTerm = true ↔
      ¬ ∃ e ∈ employees, matchesSearch searchTerm e = true) := by
  refine ⟨rfl, ?_⟩
  simp [exportButtonDisabled, List.length_eq_zero, filteredEmployees,
    List.filter_eq_nil_iff]

/-- C2 as stated is false: the exported header row is not in the import's
required order, already for the empty record list. -/
theorem export_header_order_cex :
    ¬ ((downloadCSV []).head? = some bomChar ∧
       firstLine (downloadCSV []).tail = joinWith ",".data importHeaderKeys) := by
  decide

/-- C2 amended: the export begins with a BOM followed by the header line
in the export's own order (name, email, company name, department,
position), which is a permutation of the import's required headers. -/
theorem export_bom_header_amended (data : List Employee) :
    (downloadCSV data).head? = some bomChar ∧
    firstLine (downloadCSV data).tail = exportHeaderLine ∧
    exportHeaderLine = "氏名,メールアドレス,会社名,部署,役職".data ∧
    EXPORT_HEADERS.Perm importHeaderKeys := by
  refine ⟨rfl, ?_, by decide, by decide⟩
  show firstLine (csvContent data) = exportHeaderLine
  cases data with
  | nil => decide
  | cons e es =>
      rw [csvContent, List.map_cons, joinWith_cons _ _ _ (by simp)]
      rw [firstLine, List.append_assoc]
      exact takeWhile_append_newline _ _ (by decide)

theorem importLoop_cons_dup (r : Employee) (rs : List Employee) (st : LoopState)
    (hd : r.email ∈ st.dupEmails) :
    importLoop (r :: rs) st =
      importLoop rs { st with importErrors := st.importErrors ++ [dupInFileMsg r.name] } := by
  simp [importLoop, hd]

theorem importLoop_cons_fail (r : Employee) (rs : List Employee) (st : LoopState)
    (hd : r.email ∉ st.dupEmails) (hs : r.email ∈ st.store) :
    importLoop (r :: rs) st =
      importLoop rs
        { st with dupEmails := st.dupEmails ++ [r.email],
                  importErrors := st.importErrors ++ [getErrorMessage dupEmailMsg r.name],
                  trace := st.trace ++ [(r, false)] } := by
  simp [importLoop, hd, createEmployee, checkEmailExists, insertEmployee, hs]

theorem importLoop_cons_ok (r : Employee) (rs : List Employee) (st : LoopState)
    (hd : r.email ∉ st.dupEmails) (hs : r.email ∉ st.store) :
    importLoop (r :: rs) st =
      importLoop rs
        { st with store := st.store ++ [r.email], imported := st.imported + 1,
                  dupEmails := st.dupEmails ++ [r.email],
                  trace := st.trace ++ [(r, true)] } := by
  simp [importLoop, hd, createEmployee, checkEmailExists, insertEmployee, hs]

theorem importLoop_trace (rs : List Employee) :
    ∀ st : LoopState, (importLoop rs st).trace =
      st.trace ++ traceSpec st.dupEmails st.store rs := by
  induction rs with
  | nil => intro st; simp [importLoop, traceSpec]
  | cons r rs ih =>
      intro st
      by_cases hd : r.email ∈ st.dupEmails
      · rw [importLoop_cons_dup r rs st hd, ih]; simp [traceSpec, hd]
      · by_cases hs : r.email ∈ st.store
        · rw [importLoop_cons_fail r rs st hd hs, ih]; simp [traceSpec, hd, hs]
        · rw [importLoop_cons_ok r rs st hd hs, ih]; simp [traceSpec, hd, hs]

theorem importLoop_errors (rs : List Employee) :
    ∀ st : LoopState, (importLoop rs st).importErrors =
      st.importErrors ++ errSpec st.dupEmails st.store rs := by
  induction rs with
  | nil => intro st; simp [importLoop, errSpec]
  | cons r rs ih =>
      intro st
      by_cases hd : r.email ∈ st.dupEmails
      · rw [importLoop_cons_dup r rs st hd, ih]; simp [errSpec, hd]
      · by_cases hs : r.email ∈ st.store
        · rw [importLoop_cons_fail r rs st hd hs, ih]; simp [errSpec, hd, hs]
        · rw [importLoop_cons_ok r rs st hd hs, ih]; simp [errSpec, hd, hs]

theorem importLoop_imported (rs : List Employee) :
    ∀ st : LoopState, (importLoop rs st).imported =
      st.imported + (traceSpec st.dupEmails st.store rs).countP (fun p => p.2) := by
  induction rs with
  | nil => intro st; simp [importLoop, traceSpec]
  | cons r rs ih =>
      intro st
      by_cases hd : r.email ∈ st.dupEmails
      · rw [importLoop_cons_dup r rs st hd, ih]; simp [traceSpec, hd]
      · by_cases hs : r.email ∈ st.store
        · rw [importLoop_cons_fail r rs st hd hs, ih]
          simp [traceSpec, hd, hs, List.countP_cons]
        · rw [importLoop_cons_ok r rs st hd hs, ih]
          simp [traceSpec, hd, hs, List.countP_cons]
          omega

theorem traceSpec_map_fst (rs : List Employee) :
    ∀ seen store : List Str, (traceSpec seen store rs).map Prod.fst = dedupEmails seen rs := by
  induction rs with
  | nil => intro seen store; rfl
  | cons r rs ih =>
      intro seen store
      by_cases hd : r.email ∈ seen
      · simp [traceSpec, dedupEmails, hd, ih]
      · by_cases hs : r.email ∈ store
        · simp [traceSpec, dedupEmails, hd, hs, ih]
        · simp [traceSpec, dedupEmails, hd, hs, ih]

theorem traceSpec_sum (rs : List Employee) :
    ∀ seen store : List Str,
      (traceSpec seen store rs).countP (fun p => p.2) + (errSpec seen store rs).length =
        rs.length := by
  induction rs with
  | nil => intro seen store; simp [traceSpec, errSpec]
  | cons r rs ih =>
      intro seen store
      by_cases hd : r.email ∈ seen
      · have := ih seen store
        simp [traceSpec, errSpec, hd] at *
        omega
      · by_cases hs : r.email ∈ store
        · have := ih (seen ++ [r.email]) store
          simp [traceSpec, errSpec, hd, hs, List.countP_cons] at *
          omega
        · have := ih (seen ++ [r.email]) (store ++ [r.email])
          simp [traceSpec, errSpec, hd, hs, List.countP_cons] at *
          omega

theorem errSpec_length (rs : List Employee) :
    ∀ seen store : List Str,
      (errSpec seen store rs).length + (traceSpec seen store rs).length =
        rs.length + ((traceSpec seen store rs).filter (fun p => !p.2)).length := by
  induction rs with
  | nil => intro seen store; simp [traceSpec, errSpec]
  | cons r rs ih =>
      intro seen store
      by_cases hd : r.email ∈ seen
      · have := ih seen store
        simp [traceSpec, errSpec, hd] at *
        omega
      · by_cases hs : r.email ∈ store
        · have := ih (seen ++ [r.email]) store
          simp [traceSpec, errSpec, hd, hs, List.filter_cons] at *
          omega
        · have := ih (seen ++ [r.email]) (store ++ [r.email])
          simp [traceSpec, errSpec, hd, hs, List.filter_cons] at *
          omega

theorem dedupEmails_emails (rs : List Employee) :
    ∀ seen : List Str, ((dedupEmails seen rs).map Employee.email).Nodup ∧
      ∀ x ∈ (dedupEmails seen rs).map Employee.email, x ∉ seen := by
  induction rs with
  | nil => intro seen; simp [dedupEmails]
  | cons r rs ih =>
      intro seen
      by_cases hd : r.email ∈ seen
      · simpa [dedupEmails, hd] using ih seen
      · have ihs := ih (seen ++ [r.email])
        have hred : dedupEmails seen (r :: rs) = r :: dedupEmails (seen ++ [r.email]) rs := by
          simp [dedupEmails, hd]
        rw [hred]
        simp only [List.map_cons, List.nodup_cons, List.mem_cons]
        refine ⟨⟨?_, ihs.1⟩, ?_⟩
        · intro hx
          have hni := ihs.2 _ hx
          simp at hni
        · intro x hx
          rcases hx with hx | hx
          · rw [hx]; exact hd
          · have hni := ihs.2 _ hx
            simp at hni
            exact hni.1

theorem processFile_valid_parts (fileSize : Nat) (raw : Str) (store : List Str)
    (hsize : fileSize ≤ MAX_FILE_SIZE)
    (hv : (validateCSVData (readFileText raw)).valid = true) :
    (processFile fileSize raw store).trace =
      traceSpec [] store (validateCSVData (readFileText raw)).data ∧
    (processFile fileSize raw store).errors =
      errSpec [] store (validateCSVData (readFileText raw)).data ∧
    (processFile fileSize raw store).successCount =
      (traceSpec [] store (validateCSVData (readFileText raw)).data).countP (fun p => p.2) := by
  have hnot : ¬ fileSize > MAX_FILE_SIZE := by omega
  refine ⟨?_, ?_, ?_⟩ <;>
    simp [processFile, hnot, hv, importLoop_trace, importLoop_errors, importLoop_imported]

/-- C1 as stated is false: in cexFile the first data row passes per-row
validation, yet because the second row fails validation the whole file is
rejected, no createEmployee call is made, and nothing is imported. -/
theorem import_partial_failure_cex :
    (parseCSV cexFile).head?.getD [] = importHeaderKeys ∧
    (parseCSV cexFile).tail.head? =
      some [ "A".data, "Yamada".data, "a@x.co".data, "D".data, "P".data ] ∧
    rowErrors importHeaderKeys
      [ "A".data, "Yamada".data, "a@x.co".data, "D".data, "P".data ] 2 = [] ∧
    (validateCSVData cexFile).valid = false ∧
    (processFile 100 cexFile []).trace = [] ∧
    (processFile 100 cexFile []).successCount = 0 := by
  decide

/-- C1 amended: partial failure is per-row only at the create step.  When
validation rejects the file (as it does when any row fails validation),
nothing is imported; when validation accepts it, every first-occurrence
row receives its create call even if other rows' calls fail, and each row
ends as exactly one success or one error message. -/
theorem import_partial_failure_amended (fileSize : Nat) (raw : Str) (store : List Str)
    (hsize : fileSize ≤ 5 * 1024 * 1024) :
    ((validateCSVData (readFileText raw)).valid = false →
      processFile fileSize raw store =
        { errors := (validateCSVData (readFileText raw)).errors, successCount := 0,
          trace := [], store := store }) ∧
    ((validateCSVData (readFileText raw)).valid = true →
      (processFile fileSize raw store).trace.map Prod.fst =
        dedupEmails [] (validateCSVData (readFileText raw)).data ∧
      (processFile fileSize raw store).successCount +
          (processFile fileSize raw store).errors.length =
        (validateCSVData (readFileText raw)).data.length) := by
  have hnot : ¬ fileSize > MAX_FILE_SIZE := by
    simp only [MAX_FILE_SIZE]; omega
  constructor
  · intro hv
    simp [processFile, hnot, hv]
  · intro hv
    obtain ⟨ht, he, hc⟩ := processFile_valid_parts fileSize raw store (by omega) hv
    refine ⟨?_, ?_⟩
    · rw [ht, traceSpec_map_fst]
    · rw [hc, he, traceSpec_sum]

theorem import_partial_failure_amended_witness :
    (100 : Nat) ≤ 5 * 1024 * 1024 ∧
    (validateCSVData (readFileText cexFile)).valid = false ∧
    processFile 100 cexFile [] =
      { errors := (validateCSVData (readFileText cexFile)).errors, successCount := 0,
        trace := [], store := [] } ∧
    (validateCSVData (readFileText failOkFile)).valid = true ∧
    (processFile 110 failOkFile failOkStore).successCount +
        (processFile 110 failOkFile failOkStore).errors.length =
      (validateCSVData (readFileText failOkFile)).data.length :=
  ⟨by decide, by decide,
   (import_partial_failure_amended 100 cexFile [] (by decide)).1 (by decide),
   by decide,
   ((import_partial_failure_amended 110 failOkFile failOkStore (by decide)).2 (by decide)).2⟩

/-- C7 as stated is false: mixedFile validates to three valid rows, yet
the loop makes only two createEmployee calls, because its third row
repeats the first row's email and is skipped with no call. -/
theorem import_one_call_per_row_cex :
    (validateCSVData (readFileText mixedFile)).data.length = 3 ∧
    (processFile 120 mixedFile mixedStore).trace.length = 2 ∧
    { company_name := "C".data, name := "Sato".data, email := "a@x.co".data,
      department := "D".data, position := "P".data : Employee } ∈
      (validateCSVData (readFileText mixedFile)).data ∧
    { company_name := "C".data, name := "Sato".data, email := "a@x.co".data,
      department := "D".data, position := "P".data : Employee } ∉
      (processFile 120 mixedFile mixedStore).trace.map Prod.fst := by
  decide

/-- C7 amended: the loop makes one awaited createEmployee call per valid
row that is not a within-file duplicate, in row order with the store
threaded through the calls sequentially (the trace equals the sequential
call specification); the success count is the number of calls that
succeeded, and skipped duplicates plus failed calls each contribute
exactly one error message. -/
theorem import_loop_per_row (fileSize : Nat) (raw : Str) (store : List Str)
    (hsize : fileSize ≤ MAX_FILE_SIZE)
    (hv : (validateCSVData (readFileText raw)).valid = true) :
    (processFile fileSize raw store).trace =
      traceSpec [] store (validateCSVData (readFileText raw)).data ∧
    (processFile fileSize raw store).successCount =
      ((processFile fileSize raw store).trace.filter (fun p => p.2)).length ∧
    (processFile fileSize raw store).errors.length +
        (processFile fileSize raw store).trace.length =
      (validateCSVData (readFileText raw)).data.length +
        ((processFile fileSize raw store).trace.filter (fun p => !p.2)).length := by
  obtain ⟨ht, he, hc⟩ := processFile_valid_parts fileSize raw store hsize hv
  refine ⟨ht, ?_, ?_⟩
  · rw [hc, ht, List.countP_eq_length_filter]
  · rw [he, ht, errSpec_length]

theorem import_loop_per_row_witness :
    (120 : Nat) ≤ MAX_FILE_SIZE ∧
    (validateCSVData (readFileText mixedFile)).valid = true ∧
    (processFile 120 mixedFile mixedStore).trace =
      traceSpec [] mixedStore (validateCSVData (readFileText mixedFile)).data ∧
    (processFile 120 mixedFile mixedStore).successCount =
      ((processFile 120 mixedFile mixedStore).trace.filter (fun p => p.2)).length :=
  ⟨by decide, by decide,
   (import_loop_per_row 120 mixedFile mixedStore (by decide) (by decide)).1,
   ((import_loop_per_row 120 mixedFile mixedStore (by decide) (by decide)).2).1⟩

/-- C8: within one import only the first row of each email is submitted:
the call trace is the first-occurrence sublist of the valid rows (so the
traced emails are pairwise distinct), and by errSpec every later
duplicate is skipped with the duplicate-in-file message and no call. -/
theorem import_within_file_duplicates (fileSize : Nat) (raw : Str) (store : List Str)
    (hsize : fileSize ≤ MAX_FILE_SIZE)
    (hv : (validateCSVData (readFileText raw)).valid = true) :
    (processFile fileSize raw store).trace.map Prod.fst =
      dedupEmails [] (validateCSVData (readFileText raw)).data ∧
    ((processFile fileSize raw store).trace.map (fun p => p.1.email)).Nodup ∧
    (processFile fileSize raw store).errors =
      errSpec [] store (validateCSVData (readFileText raw)).data := by
  obtain ⟨ht, he, hc⟩ := processFile_valid_parts fileSize raw store hsize hv
  have hmap : (processFile fileSize raw store).trace.map Prod.fst =
      dedupEmails [] (validateCSVData (readFileText raw)).data := by
    rw [ht, traceSpec_map_fst]
  refine ⟨hmap, ?_, he⟩
  have : (processFile fileSize raw store).trace.map (fun p => p.1.email) =
      ((processFile fileSize raw store).trace.map Prod.fst).map Employee.email := by
    simp [List.map_map]
  rw [this, hmap]
  exact (dedupEmails_emails (validateCSVData (readFileText raw)).data []).1

theorem import_within_file_duplicates_witness :
    (130 : Nat) ≤ MAX_FILE_SIZE ∧
    (validateCSVData (readFileText mixedFile)).valid = true ∧
    (processFile 130 mixedFile []).trace.map Prod.fst =
      dedupEmails [] (validateCSVData (readFileText mixedFile)).data ∧
    (processFile 130 mixedFile []).errors =
      errSpec [] [] (validateCSVData (readFileText mixedFile)).data :=
  ⟨by decide, by decide,
   (import_within_file_duplicates 130 mixedFile [] (by decide) (by decide)).1,
   ((import_within_file_duplicates 130 mixedFile [] (by decide) (by decide)).2).2⟩

theorem pcsv_start_quote (r f : Str) (rec : List Str) (acc : List (List Str)) :
    pcsv PState.start ('"' :: r) f rec acc = pcsv PState.quo r f rec acc := rfl

theorem pcsv_quo_close (r f : Str) (rec : List Str) (acc : List (List Str)) :
    pcsv PState.quo ('"' :: r) f rec acc = pcsv PState.aftq r f rec acc := rfl

theorem pcsv_aftq_comma (r f : Str) (rec : List Str) (acc : List (List Str)) :
    pcsv PState.aftq (',' :: r) f rec acc = pcsv PState.start r [] (rec ++ [f]) acc := rfl

theorem pcsv_aftq_newline (r f : Str) (rec : List Str) (acc : List (List Str)) :
    pcsv PState.aftq ('\n' :: r) f rec acc =
      pcsv PState.start r [] [] (acc ++ [rec ++ [f]]) := rfl

theorem pcsv_aftq_eof (f : Str) (rec : List Str) (acc : List (List Str)) :
    pcsv PState.aftq [] f rec acc = acc ++ [rec ++ [f]] := rfl

theorem pcsv_unq_newline (r f : Str) (rec : List Str) (acc : List (List Str)) :
    pcsv PState.unq ('\n' :: r) f rec acc =
      pcsv PState.start r [] [] (acc ++ [rec ++ [f]]) := rfl

theorem pcsv_quo_append (w : Str) :
    ∀ (r f : Str) (rec : List Str) (acc : List (List Str)), '"' ∉ w →
      pcsv PState.quo (w ++ r) f rec acc = pcsv PState.quo r (f ++ w) rec acc := by
  induction w with
  | nil => intro r f rec acc _; simp
  | cons c w ih =>
      intro r f rec acc hw
      have hc : ¬ c = '"' := fun h => hw (by simp [h])
      have hw2 : '"' ∉ w := fun h => hw (by simp [h])
      have step : pcsv PState.quo (c :: (w ++ r)) f rec acc =
          pcsv PState.quo (w ++ r) (f ++ [c]) rec acc := by
        simp [pcsv, hc]
      rw [List.cons_append, step, ih r (f ++ [c]) rec acc hw2]
      simp

theorem pcsv_quoted_field (w : Str) (hw : '"' ∉ w) (r : Str) (rec : List Str)
    (acc : List (List Str)) :
    pcsv PState.start ('"' :: (w ++ '"' :: r)) [] rec acc = pcsv PState.aftq r w rec acc := by
  rw [pcsv_start_quote, pcsv_quo_append w ('"' :: r) [] rec acc hw, List.nil_append,
    pcsv_quo_close]

theorem pcsv_row (e : Employee)
    (h1 : '"' ∉ e.name) (h2 : '"' ∉ e.email) (h3 : '"' ∉ e.company_name)
    (h4 : '"' ∉ e.department) (h5 : '"' ∉ e.position)
    (r : Str) (rec : List Str) (acc : List (List Str)) :
    pcsv PState.start (exportRow e ++ r) [] rec acc =
      pcsv PState.aftq r e.position
        (rec ++ [e.name, e.email, e.company_name, e.department]) acc := by
  have hsh : exportRow e ++ r =
      '"' :: (e.name ++ '"' :: (',' :: '"' :: (e.email ++ '"' :: (',' :: '"' ::
        (e.company_name ++ '"' :: (',' :: '"' :: (e.department ++ '"' :: (',' :: '"' ::
        (e.position ++ '"' :: r))))))))) := by
    simp [exportRow, joinWith, quoteField]
  rw [hsh, pcsv_quoted_field e.name h1, pcsv_aftq_comma,
      pcsv_quoted_field e.email h2, pcsv_aftq_comma,
      pcsv_quoted_field e.company_name h3, pcsv_aftq_comma,
      pcsv_quoted_field e.department h4, pcsv_aftq_comma,
      pcsv_quoted_field e.position h5]
  simp

theorem pcsv_rows (es : List Employee)
    (hq : ∀ e ∈ es, '"' ∉ e.name ∧ '"' ∉ e.email ∧ '"' ∉ e.company_name ∧
      '"' ∉ e.department ∧ '"' ∉ e.position) (hne : es ≠ []) :
    ∀ acc : List (List Str),
      pcsv PState.start (joinWith "\n".data (es.map exportRow)) [] [] acc =
        acc ++ es.map rowFields := by
  induction es with
  | nil => cases hne rfl
  | cons e es ih =>
      intro acc
      obtain ⟨q1, q2, q3, q4, q5⟩ := hq e (by simp)
      cases es with
      | nil =>
          have hj : joinWith "\n".data ([e].map exportRow) = exportRow e ++ [] := by
            simp [joinWith]
          rw [hj, pcsv_row e q1 q2 q3 q4 q5, pcsv_aftq_eof]
          simp [rowFields]
      | cons e2 es2 =>
          have hj : joinWith "\n".data ((e :: e2 :: es2).map exportRow) =
              exportRow e ++ '\n' :: joinWith "\n".data ((e2 :: es2).map exportRow) := by
            rw [List.map_cons, joinWith_cons _ _ _ (by simp)]
            simp
          rw [hj, pcsv_row e q1 q2 q3 q4 q5, pcsv_aftq_newline]
          rw [ih (fun x hx => hq x (by simp [hx])) (by simp)]
          simp [rowFields]

theorem pcsv_header (r : Str) :
    pcsv PState.start (exportHeaderLine ++ r) [] [] [] =
      pcsv PState.unq r "役職".data
        [ "氏名".data, "メールアドレス".data, "会社名".data, "部署".data ] [] := rfl

theorem parseCSV_export (data : List Employee) (hne : data ≠ [])
    (hq : ∀ e ∈ data, '"' ∉ e.name ∧ '"' ∉ e.email ∧ '"' ∉ e.company_name ∧
      '"' ∉ e.department ∧ '"' ∉ e.position) :
    parseCSV (csvContent data) = EXPORT_HEADERS :: data.map rowFields := by
  cases data with
  | nil => cases hne rfl
  | cons e es =>
      have hj : csvContent (e :: es) =
          exportHeaderLine ++ '\n' :: joinWith "\n".data ((e :: es).map exportRow) := by
        rw [csvContent, joinWith_cons _ _ _ (by simp)]
        simp
      rw [parseCSV, hj, pcsv_header, pcsv_unq_newline]
      rw [pcsv_rows (e :: es) hq (by simp)]
      simp [EXPORT_HEADERS]

theorem rowGetName (n em c d p : Str) :
    rowGet EXPORT_HEADERS [n, em, c, d, p] [ '氏', '名' ] = some n := rfl

theorem rowGetEmail (n em c d p : Str) :
    rowGet EXPORT_HEADERS [n, em, c, d, p] [ 'メ', 'ー', 'ル', 'ア', 'ド', 'レ', 'ス' ] =
      some em := rfl

theorem rowGetCompany (n em c d p : Str) :
    rowGet EXPORT_HEADERS [n, em, c, d, p] [ '会', '社', '名' ] = some c := rfl

theorem rowGetDepartment (n em c d p : Str) :
    rowGet EXPORT_HEADERS [n, em, c, d, p] [ '部', '署' ] = some d := rfl

theorem rowGetPosition (n em c d p : Str) :
    rowGet EXPORT_HEADERS [n, em, c, d, p] [ '役', '職' ] = some p := rfl

theorem rowErrors_export_ok (n em c d p : Str) (k : Nat)
    (hn : trimStr n ≠ []) (hem : trimStr em ≠ []) (hc : trimStr c ≠ [])
    (hd : trimStr d ≠ []) (hp : trimStr p ≠ []) (hmail : emailOk em = true) :
    rowErrors EXPORT_HEADERS [n, em, c, d, p] k = [] := by
  simp [rowErrors, REQUIRED_HEADERS, List.filterMap_cons, rowGetName, rowGetEmail,
    rowGetCompany, rowGetDepartment, rowGetPosition, hn, hem, hc, hd, hp, hmail]

theorem rowToEmployee_export (e : Employee) :
    rowToEmployee EXPORT_HEADERS (rowFields e) = e := by
  cases e
  rfl

theorem processRows_export (data : List Employee) :
    ∀ idx : Nat, (∀ e ∈ data, fieldsOk e = true) →
      processRows EXPORT_HEADERS idx (data.map rowFields) = ([], data) := by
  induction data with
  | nil => intro idx _; rfl
  | cons e es ih =>
      intro idx hok
      have he := hok e (by simp)
      simp only [fieldsOk, Bool.and_eq_true, decide_eq_true_eq] at he
      obtain ⟨⟨⟨⟨⟨⟨⟨⟨⟨⟨_, _⟩, _⟩, _⟩, _⟩, htc⟩, htn⟩, htem⟩, htd⟩, htp⟩, hmail⟩ := he
      have herr : rowErrors EXPORT_HEADERS (rowFields e) (idx + 2) = [] :=
        rowErrors_export_ok e.name e.email e.company_name e.department e.position
          (idx + 2) htn htem htc htd htp hmail
      have hrest := ih (idx + 1) fun x hx => hok x (by simp [hx])
      simp only [List.map_cons, processRows, herr, if_pos, hrest, rowToEmployee_export]

/-- C3 as stated is false: wsEmp has five non-empty fields and an email
accepted by the import pattern, yet re-validating its own export fails,
because the whitespace-only name trims to empty. -/
theorem csv_roundtrip_cex :
    wsEmp.company_name ≠ [] ∧ wsEmp.name ≠ [] ∧ wsEmp.email ≠ [] ∧
    wsEmp.department ≠ [] ∧ wsEmp.position ≠ [] ∧ emailOk wsEmp.email = true ∧
    ¬ ((validateCSVData (readFileText (downloadCSV [wsEmp]))).valid = true ∧
       (validateCSVData (readFileText (downloadCSV [wsEmp]))).data = [wsEmp]) := by
  decide

/-- C3 amended: the round trip holds for every non-empty record list whose
fields are quote-free and non-whitespace and whose emails pass the import
pattern: validating the exported text yields a valid result with no error
and exactly the original records. -/
theorem csv_roundtrip_amended (data : List Employee) (hne : data ≠ [])
    (hok : ∀ e ∈ data, fieldsOk e = true) :
    validateCSVData (readFileText (downloadCSV data)) =
      { valid := true, errors := [], data := data } := by
  have hread : readFileText (downloadCSV data) = csvContent data := by
    simp [readFileText, downloadCSV]
  have hq : ∀ e ∈ data, '"' ∉ e.name ∧ '"' ∉ e.email ∧ '"' ∉ e.company_name ∧
      '"' ∉ e.department ∧ '"' ∉ e.position := by
    intro e he
    have hf := hok e he
    simp only [fieldsOk, quoteFreeB, Bool.and_eq_true, Bool.not_eq_true,
      decide_eq_true_eq] at hf
    obtain ⟨⟨⟨⟨⟨⟨⟨⟨⟨⟨hfc, hfn⟩, hfe⟩, hfd⟩, hfp⟩, _⟩, _⟩, _⟩, _⟩, _⟩, _⟩ := hf
    refine ⟨?_, ?_, ?_, ?_, ?_⟩ <;> simp [List.elem_iff] at hfc hfn hfe hfd hfp ⊢ <;>
      assumption
  have hparse := parseCSV_export data hne hq
  rw [hread]
  simp only [validateCSVData]
  rw [hparse]
  simp only [List.head?_cons, Option.getD_some, List.tail_cons]
  rw [show (REQUIRED_HEADERS.map Prod.fst).filter (fun h => !EXPORT_HEADERS.contains h) =
        [] from by decide]
  rw [processRows_export data 0 hok]
  cases data with
  | nil => cases hne rfl
  | cons e es => simp

theorem csv_roundtrip_amended_witness :
    ([wEmp] : List Employee) ≠ [] ∧ (∀ e ∈ ([wEmp] : List Employee), fieldsOk e = true) ∧
    validateCSVData (readFileText (downloadCSV [wEmp])) =
      { valid := true, errors := [], data := [wEmp] } :=
  ⟨by decide, by decide, csv_roundtrip_amended [wEmp] (by decide) (by decide)⟩
